import Mathlib

/-!
Verification of the generator-derivation engine in
`src/crypto/src/range_proof/generators.rs`.

The Rust code derives Pedersen-commitment generators by seeding a SHAKE256
XOF with the tag `"GeneratorsChain"` plus a label, squeezing 64 bytes per
generator, and mapping each 64-byte block onto the Ristretto group with
`RistrettoPoint::from_uniform_bytes`.  The `BulletproofGens` store caches two
growable families of generators and hands out bounded iterator views.

The external cryptographic primitives (SHAKE256 and the uniform-bytes-to-point
map) come from external crates, so they are modelled abstractly: a `Crypto`
bundle provides `xof`, the deterministic byte stream SHAKE256 produces for a
given input, and `fromUniformBytes`, the total map from 64-byte blocks to
group elements.  All repository code is translated faithfully below.
-/

namespace SplZkToken

/-- Byte strings, modelled as lists of naturals. -/
abbrev Bytes := List Nat

/-- Abstract model of the external cryptographic primitives: `xof s i` is the
`i`-th output byte of SHAKE256 on input `s`; `fromUniformBytes` models the
total map `RistrettoPoint::from_uniform_bytes`. -/
structure Crypto (Point : Type) where
  xof : Bytes → Nat → Nat
  fromUniformBytes : Bytes → Point

/-- The bytes of the ASCII string `"GeneratorsChain"`, the fixed protocol tag
fed to the XOF by `GeneratorsChain::new`. -/
def generatorsChainTag : Bytes :=
  [71, 101, 110, 101, 114, 97, 116, 111, 114, 115, 67, 104, 97, 105, 110]

/-- Model of `Sha3XofReader`: a cursor into the XOF output stream for a fixed
seed.  `seed` is the concatenation of all `input` calls made before
`xof_result`, and `pos` the number of bytes already squeezed. -/
structure Sha3XofReader where
  seed : Bytes
  pos : Nat
  deriving DecidableEq, Repr

/-- Model of `XofReader::read` filling an `n`-byte buffer: returns the next
`n` stream bytes and advances the cursor irreversibly. -/
def Sha3XofReader.read (xof : Bytes → Nat → Nat) (r : Sha3XofReader) (n : Nat) :
    Bytes × Sha3XofReader :=
  ((List.range n).map (fun i => xof r.seed (r.pos + i)), ⟨r.seed, r.pos + n⟩)

/-- Model of `struct GeneratorsChain { reader: Sha3XofReader }`. -/
structure GeneratorsChain where
  reader : Sha3XofReader
  deriving DecidableEq, Repr

/-- `GeneratorsChain::new(label)`: seeds SHAKE256 with `b"GeneratorsChain"`
then `label` (successive `input` calls concatenate) and takes the XOF reader. -/
def GeneratorsChain.new (label : Bytes) : GeneratorsChain :=
  ⟨⟨generatorsChainTag ++ label, 0⟩⟩

/-- `GeneratorsChain::fast_forward(n)`: `n` times, read a 64-byte buffer from
the reader and discard it. -/
def GeneratorsChain.fast_forward (xof : Bytes → Nat → Nat) :
    GeneratorsChain → Nat → GeneratorsChain
  | c, 0 => c
  | c, k + 1 => GeneratorsChain.fast_forward xof ⟨(c.reader.read xof 64).2⟩ k

/-- `<GeneratorsChain as Iterator>::next`: read 64 uniform bytes and map them
to a point; always returns `Some`. -/
def GeneratorsChain.next {Point : Type} (C : Crypto Point) (c : GeneratorsChain) :
    Option Point × GeneratorsChain :=
  let step := c.reader.read C.xof 64
  (some (C.fromUniformBytes step.1), ⟨step.2⟩)

/-- Collecting `k` items from the iterator, as done by `.take(k)` feeding
`Vec::extend`: pull `next` up to `k` times, stopping early on `None`. -/
def GeneratorsChain.takeList {Point : Type} (C : Crypto Point) (c : GeneratorsChain) :
    Nat → List Point × GeneratorsChain
  | 0 => ([], c)
  | k + 1 =>
    match c.next C with
    | (some p, c') =>
      let rest := c'.takeList C k
      (p :: rest.1, rest.2)
    | (none, c') => ([], c')

/-- Pulling `next()` `n` times and discarding the results, keeping the mutated
stream.  Modelled from the spec's description of `fast_forward`: calls
`next()` n times discarding results, returns the stream positioned at
ordinal n.  Used to compare the code's 64-byte-skip loop against it. -/
def GeneratorsChain.nextsDiscarded {Point : Type} (C : Crypto Point) :
    GeneratorsChain → Nat → GeneratorsChain
  | c, 0 => c
  | c, k + 1 => GeneratorsChain.nextsDiscarded C (c.next C).2 k

/-- Model of `struct BulletproofGens`. -/
structure BulletproofGens (Point : Type) where
  gens_capacity : Nat
  G_vec : List Point
  H_vec : List Point
  deriving DecidableEq, Repr

/-- `BulletproofGens::increase_capacity(new_capacity)`: no-op when the current
capacity already reaches `new_capacity`; otherwise build one chain per family
with labels `[b'G'] ++ [b'G']` and `[b'G'] ++ [b'H']` (the Rust
`[label, [b'G']].concat()` with `label = [b'G']`), fast-forward past the
already-materialized prefix, take the missing count, and append. -/
def BulletproofGens.increase_capacity {Point : Type} (C : Crypto Point)
    (g : BulletproofGens Point) (new_capacity : Nat) : BulletproofGens Point :=
  if g.gens_capacity ≥ new_capacity then g
  else
    let label : Bytes := [71]
    let gNew :=
      (((GeneratorsChain.new (label ++ [71])).fast_forward C.xof
        g.gens_capacity).takeList C (new_capacity - g.gens_capacity)).1
    let hNew :=
      (((GeneratorsChain.new (label ++ [72])).fast_forward C.xof
        g.gens_capacity).takeList C (new_capacity - g.gens_capacity)).1
    ⟨new_capacity, g.G_vec ++ gNew, g.H_vec ++ hNew⟩

/-- `BulletproofGens::new(gens_capacity)`: start from the empty store and call
`increase_capacity`. -/
def BulletproofGens.new {Point : Type} (C : Crypto Point) (gens_capacity : Nat) :
    BulletproofGens Point :=
  BulletproofGens.increase_capacity C ⟨0, [], []⟩ gens_capacity

/-- Model of `struct GensIter`: a bounded cursor over a stored vector. -/
structure GensIter (Point : Type) where
  array : List Point
  n : Nat
  gen_idx : Nat
  deriving DecidableEq, Repr

/-- `<GensIter as Iterator>::next`: ends once `gen_idx` reaches `n`, otherwise
indexes `array[gen_idx]` with no bounds guard.  An in-bounds index yields the
element; an out-of-bounds index is the Rust panic, modelled as `Except.error`. -/
def GensIter.next {Point : Type} (it : GensIter Point) :
    Except Unit (Option (Point × GensIter Point)) :=
  if it.gen_idx ≥ it.n then Except.ok none
  else
    match it.array[it.gen_idx]? with
    | some p => Except.ok (some (p, ⟨it.array, it.n, it.gen_idx + 1⟩))
    | none => Except.error ()

/-- One driving step of `GensIter`, bounded by explicit fuel.  `next` returns
`none` as soon as `gen_idx` reaches `n`, so the iterator yields exactly
`n - gen_idx` times; supplying that amount of fuel reproduces a full drive. -/
def GensIter.collectAux {Point : Type} : Nat → GensIter Point → Except Unit (List Point)
  | 0, _ => Except.ok []
  | fuel + 1, it =>
    if it.gen_idx ≥ it.n then Except.ok []
    else
      match it.array[it.gen_idx]? with
      | some p =>
        match GensIter.collectAux fuel ⟨it.array, it.n, it.gen_idx + 1⟩ with
        | Except.ok ps => Except.ok (p :: ps)
        | Except.error e => Except.error e
      | none => Except.error ()

/-- Driving a `GensIter` to completion: the list of all yielded elements, or
`Except.error` if a `next` call reaches an out-of-bounds index (the Rust
panic). -/
def GensIter.collect {Point : Type} (it : GensIter Point) : Except Unit (List Point) :=
  GensIter.collectAux (it.n - it.gen_idx) it

/-- `BulletproofGens::G(n)`: the bounded view over the G family. -/
def BulletproofGens.G {Point : Type} (g : BulletproofGens Point) (n : Nat) :
    GensIter Point :=
  ⟨g.G_vec, n, 0⟩

/-- `BulletproofGens::H(n)`: the bounded view over the H family. -/
def BulletproofGens.H {Point : Type} (g : BulletproofGens Point) (n : Nat) :
    GensIter Point :=
  ⟨g.H_vec, n, 0⟩

/-- The `i`-th point of the stream for XOF seed `seed`: the image of output
bytes `[64*i, 64*i + 64)`. -/
def pointAt {Point : Type} (C : Crypto Point) (seed : Bytes) (i : Nat) : Point :=
  C.fromUniformBytes ((List.range 64).map (fun j => C.xof seed (64 * i + j)))

/-- The `i`-th point of the generator chain for `label`: a function of the
label and the ordinal position only. -/
def chainPoint {Point : Type} (C : Crypto Point) (label : Bytes) (i : Nat) : Point :=
  pointAt C (generatorsChainTag ++ label) i

/-- The store whose two families hold exactly the first `c` chain points for
the G-family and H-family labels used by `increase_capacity`. -/
def canonicalGens {Point : Type} (C : Crypto Point) (c : Nat) : BulletproofGens Point :=
  ⟨c, (List.range c).map (chainPoint C ([71] ++ [71])),
    (List.range c).map (chainPoint C ([71] ++ [72]))⟩

/-- A concrete instantiation of the abstract primitives, used to evaluate the
model on explicit inputs. -/
def testCrypto : Crypto Nat :=
  ⟨fun s i => s.length + i, fun bs => bs.sum⟩

/-! ### Helper lemmas -/

/-- Reading advances the cursor by `n` and keeps the seed. -/
theorem Sha3XofReader.read_snd (xof : Bytes → Nat → Nat) (r : Sha3XofReader) (n : Nat) :
    (r.read xof n).2 = ⟨r.seed, r.pos + n⟩ := rfl

/-- `fast_forward` keeps the seed and advances the cursor by `64 * n`. -/
theorem GeneratorsChain.fast_forward_reader (xof : Bytes → Nat → Nat)
    (c : GeneratorsChain) (n : Nat) :
    c.fast_forward xof n = ⟨⟨c.reader.seed, c.reader.pos + 64 * n⟩⟩ := by
  induction n generalizing c with
  | zero => simp [GeneratorsChain.fast_forward]
  | succ k ih =>
    show GeneratorsChain.fast_forward xof ⟨(c.reader.read xof 64).2⟩ k = _
    rw [ih]
    simp [Sha3XofReader.read]
    omega

/-- Pulling `next` and discarding `n` times also advances the cursor by
`64 * n`: each call consumes exactly 64 bytes. -/
theorem GeneratorsChain.nextsDiscarded_reader {Point : Type} (C : Crypto Point)
    (c : GeneratorsChain) (n : Nat) :
    GeneratorsChain.nextsDiscarded C c n = ⟨⟨c.reader.seed, c.reader.pos + 64 * n⟩⟩ := by
  induction n generalizing c with
  | zero => simp [GeneratorsChain.nextsDiscarded]
  | succ k ih =>
    show GeneratorsChain.nextsDiscarded C (c.next C).2 k = _
    rw [ih]
    simp [GeneratorsChain.next, Sha3XofReader.read]
    omega

/-- `next` on a cursor at byte offset `64 * i` yields the `i`-th stream point
and leaves the cursor at offset `64 * (i + 1)`. -/
theorem GeneratorsChain.next_at {Point : Type} (C : Crypto Point) (seed : Bytes) (i : Nat) :
    GeneratorsChain.next C ⟨⟨seed, 64 * i⟩⟩ =
      (some (pointAt C seed i), ⟨⟨seed, 64 * (i + 1)⟩⟩) := by
  simp [GeneratorsChain.next, Sha3XofReader.read, pointAt]
  omega

/-- `takeList` from byte offset `64 * i` returns the stream points at ordinals
`i, i+1, …, i+k-1` and leaves the cursor at offset `64 * (i + k)`. -/
theorem GeneratorsChain.takeList_at {Point : Type} (C : Crypto Point) (seed : Bytes)
    (i k : Nat) :
    GeneratorsChain.takeList C ⟨⟨seed, 64 * i⟩⟩ k =
      ((List.range k).map (fun j => pointAt C seed (i + j)), ⟨⟨seed, 64 * (i + k)⟩⟩) := by
  induction k generalizing i with
  | zero => simp [GeneratorsChain.takeList]
  | succ k ih =>
    show (match GeneratorsChain.next C ⟨⟨seed, 64 * i⟩⟩ with
      | (some p, c') =>
        let rest := GeneratorsChain.takeList C c' k
        (p :: rest.1, rest.2)
      | (none, c') => ([], c')) = _
    rw [GeneratorsChain.next_at]
    show (pointAt C seed i :: (GeneratorsChain.takeList C ⟨⟨seed, 64 * (i + 1)⟩⟩ k).1,
      (GeneratorsChain.takeList C ⟨⟨seed, 64 * (i + 1)⟩⟩ k).2) = _
    rw [ih]
    simp [List.range_succ_eq_map, List.map_map, Function.comp]
    constructor
    · intro a _
      congr 1
      omega
    · omega

/-- `takeList` always returns exactly the requested number of points. -/
theorem GeneratorsChain.takeList_len {Point : Type} (C : Crypto Point)
    (c : GeneratorsChain) (k : Nat) :
    (c.takeList C k).1.length = k := by
  induction k generalizing c with
  | zero => rfl
  | succ k ih =>
    show (match c.next C with
      | (some p, c') =>
        let rest := GeneratorsChain.takeList C c' k
        (p :: rest.1, rest.2)
      | (none, c') => ([], c')).1.length = k + 1
    simp [GeneratorsChain.next, ih]

/-- Growing a canonical store of capacity `m` to capacity `n` yields the
canonical store of capacity `max m n`: the appended points are exactly the
chain points at ordinals `m, …, n-1`. -/
theorem BulletproofGens.canonical_step {Point : Type} (C : Crypto Point) (m n : Nat) :
    BulletproofGens.increase_capacity C (canonicalGens C m) n = canonicalGens C (max m n) := by
  rw [BulletproofGens.increase_capacity]
  by_cases h : (canonicalGens C m).gens_capacity ≥ n
  · rw [if_pos h]
    have hm : max m n = m := Nat.max_eq_left h
    rw [hm]
  · rw [if_neg h]
    have hmn : m < n := Nat.lt_of_not_ge h
    have hmax : max m n = n := Nat.max_eq_right (Nat.le_of_lt hmn)
    simp only [GeneratorsChain.new, GeneratorsChain.fast_forward_reader, canonicalGens,
      Nat.zero_add, GeneratorsChain.takeList_at, hmax, BulletproofGens.mk.injEq, true_and]
    have hr : n = m + (n - m) := by omega
    refine ⟨?_, ?_⟩ <;>
    · conv_rhs => rw [hr, List.range_add]
      rw [List.map_append, List.map_map]
      simp [chainPoint, Function.comp]

/-- `BulletproofGens::new(n)` builds exactly the canonical store of
capacity `n`. -/
theorem BulletproofGens.new_canonical {Point : Type} (C : Crypto Point) (n : Nat) :
    BulletproofGens.new C n = canonicalGens C n := by
  have h0 : (⟨0, [], []⟩ : BulletproofGens Point) = canonicalGens C 0 := rfl
  rw [BulletproofGens.new, h0, BulletproofGens.canonical_step]
  simp

/-- `increase_capacity` below or at the current capacity returns the store
unchanged. -/
theorem BulletproofGens.increase_cap_le {Point : Type} (C : Crypto Point)
    (g : BulletproofGens Point) (m : Nat) (h : m ≤ g.gens_capacity) :
    g.increase_capacity C m = g := by
  rw [BulletproofGens.increase_capacity, if_pos h]

/-- Above the current capacity, `increase_capacity` appends the freshly drawn
points of each family after the existing entries and sets the new capacity. -/
theorem BulletproofGens.increase_cap_gt {Point : Type} (C : Crypto Point)
    (g : BulletproofGens Point) (n : Nat) (h : ¬ g.gens_capacity ≥ n) :
    g.increase_capacity C n =
      ⟨n,
        g.G_vec ++ (((GeneratorsChain.new ([71] ++ [71])).fast_forward C.xof
          g.gens_capacity).takeList C (n - g.gens_capacity)).1,
        g.H_vec ++ (((GeneratorsChain.new ([71] ++ [72])).fast_forward C.xof
          g.gens_capacity).takeList C (n - g.gens_capacity)).1⟩ := by
  rw [BulletproofGens.increase_capacity, if_neg h]

/-- `increase_capacity` preserves the invariant that both stored sequences
have exactly `gens_capacity` elements. -/
theorem BulletproofGens.increase_cap_lengths {Point : Type} (C : Crypto Point)
    (g : BulletproofGens Point) (n : Nat)
    (hG : g.G_vec.length = g.gens_capacity) (hH : g.H_vec.length = g.gens_capacity) :
    (g.increase_capacity C n).G_vec.length = (g.increase_capacity C n).gens_capacity ∧
    (g.increase_capacity C n).H_vec.length = (g.increase_capacity C n).gens_capacity := by
  by_cases h : g.gens_capacity ≥ n
  · rw [BulletproofGens.increase_cap_le C g n h]
    exact ⟨hG, hH⟩
  · rw [BulletproofGens.increase_cap_gt C g n h]
    constructor <;>
    · simp [List.length_append, GeneratorsChain.takeList_len, hG, hH]
      omega

/-- `increase_capacity` leaves every already-stored entry in place: growth
only appends. -/
theorem BulletproofGens.increase_cap_getElem {Point : Type} (C : Crypto Point)
    (g : BulletproofGens Point) (n i : Nat)
    (hiG : i < g.G_vec.length) (hiH : i < g.H_vec.length) :
    (g.increase_capacity C n).G_vec[i]? = g.G_vec[i]? ∧
    (g.increase_capacity C n).H_vec[i]? = g.H_vec[i]? := by
  by_cases h : g.gens_capacity ≥ n
  · rw [BulletproofGens.increase_cap_le C g n h]
    exact ⟨rfl, rfl⟩
  · rw [BulletproofGens.increase_cap_gt C g n h]
    exact ⟨List.getElem?_append_left hiG, List.getElem?_append_left hiH⟩

/-- Driving a bounded view with enough fuel collects the slice
`(take n).drop i` of the backing array when `n` is within bounds. -/
theorem GensIter.collectAux_ok {Point : Type} (a : List Point) (n : Nat)
    (hn : n ≤ a.length) :
    ∀ fuel i, n - i ≤ fuel →
      GensIter.collectAux fuel ⟨a, n, i⟩ = Except.ok ((a.take n).drop i) := by
  intro fuel
  induction fuel with
  | zero =>
    intro i hi
    have hti : (a.take n).length ≤ i := by
      simp [List.length_take]
      omega
    show Except.ok [] = _
    rw [List.drop_eq_nil_of_le hti]
  | succ fuel ih =>
    intro i hi
    by_cases hin : i ≥ n
    · have hti : (a.take n).length ≤ i := by
        simp [List.length_take]
        omega
      show (if i ≥ n then _ else _) = _
      rw [if_pos hin, List.drop_eq_nil_of_le hti]
    · have hin' : i < n := Nat.lt_of_not_ge hin
      have hia : i < a.length := Nat.lt_of_lt_of_le hin' hn
      have hit : i < (a.take n).length := by
        simp [List.length_take]
        omega
      show (if i ≥ n then _ else _) = _
      rw [if_neg hin]
      have hget : a[i]? = some a[i] := List.getElem?_eq_getElem hia
      rw [hget]
      show (match GensIter.collectAux fuel ⟨a, n, i + 1⟩ with
        | Except.ok ps => Except.ok (a[i] :: ps)
        | Except.error e => Except.error e) = _
      rw [ih (i + 1) (by omega)]
      rw [List.drop_eq_getElem_cons hit]
      show Except.ok (a[i] :: (a.take n).drop (i + 1)) = _
      congr 2
      rw [List.getElem_take]

/-- Driving a bounded view whose bound exceeds the backing array reaches the
out-of-bounds index: the drive ends in the panic, never in a result. -/
theorem GensIter.collectAux_err {Point : Type} (a : List Point) (n : Nat)
    (hn : a.length < n) :
    ∀ fuel i, n - i ≤ fuel → i ≤ a.length →
      GensIter.collectAux fuel ⟨a, n, i⟩ = Except.error () := by
  intro fuel
  induction fuel with
  | zero =>
    intro i h1 h2
    omega
  | succ fuel ih =>
    intro i h1 h2
    have hin : ¬ i ≥ n := by omega
    show (if i ≥ n then _ else _) = _
    rw [if_neg hin]
    by_cases hia : i < a.length
    · have hget : a[i]? = some a[i] := List.getElem?_eq_getElem hia
      rw [hget]
      show (match GensIter.collectAux fuel ⟨a, n, i + 1⟩ with
        | Except.ok ps => Except.ok (a[i] :: ps)
        | Except.error e => Except.error e) = _
      rw [ih (i + 1) (by omega) (by omega)]
    · have hget : a[i]? = none := by
        rw [List.getElem?_eq_none]
        omega
      rw [hget]

/-- A full drive of `G(n)`-style views succeeds with the `n`-element slice
when `n` is within the backing array. -/
theorem GensIter.collect_ok {Point : Type} (a : List Point) (n : Nat)
    (hn : n ≤ a.length) :
    GensIter.collect ⟨a, n, 0⟩ = Except.ok (a.take n) := by
  rw [GensIter.collect]
  have h := GensIter.collectAux_ok a n hn (n - 0) 0 (Nat.le_refl _)
  simpa using h

/-- A full drive of a view whose bound exceeds the backing array panics. -/
theorem GensIter.collect_err {Point : Type} (a : List Point) (n : Nat)
    (hn : a.length < n) :
    GensIter.collect ⟨a, n, 0⟩ = Except.error () := by
  rw [GensIter.collect]
  exact GensIter.collectAux_err a n hn (n - 0) 0 (Nat.le_refl _) (Nat.zero_le _)

/-- After fast-forwarding a fresh chain for `label` by `k`, the next output is
the chain point of `label` at ordinal `k`. -/
theorem GeneratorsChain.new_ff_next {Point : Type} (C : Crypto Point) (label : Bytes)
    (k : Nat) :
    (((GeneratorsChain.new label).fast_forward C.xof k).next C).1 =
      some (chainPoint C label k) := by
  rw [GeneratorsChain.fast_forward_reader]
  show (GeneratorsChain.next C ⟨⟨generatorsChainTag ++ label, 0 + 64 * k⟩⟩).1 = _
  rw [Nat.zero_add, GeneratorsChain.next_at]
  rfl

/-- After pulling and discarding `k` outputs of a fresh chain for `label`, the
next output is the chain point of `label` at ordinal `k`. -/
theorem GeneratorsChain.new_nexts_next {Point : Type} (C : Crypto Point) (label : Bytes)
    (k : Nat) :
    ((GeneratorsChain.nextsDiscarded C (GeneratorsChain.new label) k).next C).1 =
      some (chainPoint C label k) := by
  rw [GeneratorsChain.nextsDiscarded_reader]
  show (GeneratorsChain.next C ⟨⟨generatorsChainTag ++ label, 0 + 64 * k⟩⟩).1 = _
  rw [Nat.zero_add, GeneratorsChain.next_at]
  rfl

/-! ### Claim theorems -/

/-- Claim C1: for every `m` and `n` with `n > m`, calling
`increase_capacity(m)` and then `increase_capacity(n)` on a fresh store
produces `G_vec` and `H_vec` whose first `m` elements equal the first `m`
elements produced by calling `increase_capacity(n)` directly in one step on a
fresh store, and the full length-`n` sequences coincide. -/
theorem claim_C1_two_step_eq_one_step {Point : Type} (C : Crypto Point) (m n : Nat)
    (hmn : n > m) :
    ((((BulletproofGens.new C 0).increase_capacity C m).increase_capacity C n).G_vec.take m =
      ((BulletproofGens.new C 0).increase_capacity C n).G_vec.take m) ∧
    ((((BulletproofGens.new C 0).increase_capacity C m).increase_capacity C n).H_vec.take m =
      ((BulletproofGens.new C 0).increase_capacity C n).H_vec.take m) ∧
    (((BulletproofGens.new C 0).increase_capacity C m).increase_capacity C n =
      (BulletproofGens.new C 0).increase_capacity C n) ∧
    (((BulletproofGens.new C 0).increase_capacity C n).G_vec.length = n ∧
      ((BulletproofGens.new C 0).increase_capacity C n).H_vec.length = n) := by
  have h0 : BulletproofGens.new C 0 = canonicalGens C 0 := BulletproofGens.new_canonical C 0
  have key : ((BulletproofGens.new C 0).increase_capacity C m).increase_capacity C n =
      (BulletproofGens.new C 0).increase_capacity C n := by
    rw [h0, BulletproofGens.canonical_step, BulletproofGens.canonical_step,
      BulletproofGens.canonical_step]
    congr 1
    omega
  have hlen : ((BulletproofGens.new C 0).increase_capacity C n).G_vec.length = n ∧
      ((BulletproofGens.new C 0).increase_capacity C n).H_vec.length = n := by
    rw [h0, BulletproofGens.canonical_step]
    constructor <;> simp [canonicalGens]
  exact ⟨by rw [key], by rw [key], key, hlen⟩

/-- Claim C1 witness at `m = 1`, `n = 2` over the concrete primitives. -/
theorem claim_C1_witness :
    ((((BulletproofGens.new testCrypto 0).increase_capacity testCrypto 1).increase_capacity
        testCrypto 2).G_vec.take 1 =
      ((BulletproofGens.new testCrypto 0).increase_capacity testCrypto 2).G_vec.take 1) ∧
    ((((BulletproofGens.new testCrypto 0).increase_capacity testCrypto 1).increase_capacity
        testCrypto 2).H_vec.take 1 =
      ((BulletproofGens.new testCrypto 0).increase_capacity testCrypto 2).H_vec.take 1) ∧
    (((BulletproofGens.new testCrypto 0).increase_capacity testCrypto 1).increase_capacity
        testCrypto 2 =
      (BulletproofGens.new testCrypto 0).increase_capacity testCrypto 2) ∧
    (((BulletproofGens.new testCrypto 0).increase_capacity testCrypto 2).G_vec.length = 2 ∧
      ((BulletproofGens.new testCrypto 0).increase_capacity testCrypto 2).H_vec.length = 2) :=
  claim_C1_two_step_eq_one_step testCrypto 1 2 (by decide)

/-- Claim C2: the `k`-th group element of a generators chain built from label
`L` is a function of `(L, k)` only: pulling `k` outputs one at a time,
fast-forwarding by `k`, or batch-collecting `n > k` outputs all place the very
same point `chainPoint C L k` at position `k`, so two independently
constructed streams from `L` agree at every position. -/
theorem claim_C2_chain_deterministic {Point : Type} (C : Crypto Point) (label : Bytes)
    (k n : Nat) (hk : k < n) :
    ((GeneratorsChain.nextsDiscarded C (GeneratorsChain.new label) k).next C).1 =
      some (chainPoint C label k) ∧
    (((GeneratorsChain.new label).fast_forward C.xof k).next C).1 =
      some (chainPoint C label k) ∧
    ((GeneratorsChain.new label).takeList C n).1[k]? = some (chainPoint C label k) := by
  refine ⟨GeneratorsChain.new_nexts_next C label k, GeneratorsChain.new_ff_next C label k, ?_⟩
  show (GeneratorsChain.takeList C ⟨⟨generatorsChainTag ++ label, 64 * 0⟩⟩ n).1[k]? = _
  rw [GeneratorsChain.takeList_at]
  simp [List.getElem?_range hk, chainPoint]

/-- Claim C2 witness at `label = []`, `k = 0`, `n = 1` over the concrete
primitives. -/
theorem claim_C2_witness :
    ((GeneratorsChain.nextsDiscarded testCrypto (GeneratorsChain.new []) 0).next testCrypto).1 =
      some (chainPoint testCrypto [] 0) ∧
    (((GeneratorsChain.new []).fast_forward testCrypto.xof 0).next testCrypto).1 =
      some (chainPoint testCrypto [] 0) ∧
    ((GeneratorsChain.new []).takeList testCrypto 1).1[0]? = some (chainPoint testCrypto [] 0) :=
  claim_C2_chain_deterministic testCrypto [] 0 1 (by decide)

/-- Claim C3 counterexample: on a store of capacity 1, driving the view
`G(2)` reaches the out-of-bounds index and panics; it does not return the
silently truncated `min(2, capacity) = 1` element prefix the claim asserts. -/
theorem claim_C3_counterexample :
    ((BulletproofGens.new testCrypto 1).G 2).collect = Except.error () ∧
    ((BulletproofGens.new testCrypto 1).G 2).collect ≠
      Except.ok ((BulletproofGens.new testCrypto 1).G_vec.take
        (min 2 (BulletproofGens.new testCrypto 1).gens_capacity)) :=
  ⟨rfl, fun h => Except.noConfusion h⟩

/-- Claim C3 (amended): `G(n)` and `H(n)` return a read-only ordered view of
the first `min(n, current_capacity)` elements only when `n ≤ capacity` (where
the minimum is `n` itself); when `n` exceeds the capacity, consuming the view
indexes out of bounds and panics instead of silently truncating. -/
theorem claim_C3_views_truncation_amended {Point : Type} (g : BulletproofGens Point)
    (n : Nat) (hG : g.G_vec.length = g.gens_capacity)
    (hH : g.H_vec.length = g.gens_capacity) :
    (n ≤ g.gens_capacity →
      (g.G n).collect = Except.ok (g.G_vec.take (min n g.gens_capacity)) ∧
      (g.H n).collect = Except.ok (g.H_vec.take (min n g.gens_capacity))) ∧
    (g.gens_capacity < n →
      (g.G n).collect = Except.error () ∧ (g.H n).collect = Except.error ()) := by
  constructor
  · intro hn
    have hmin : min n g.gens_capacity = n := Nat.min_eq_left hn
    rw [hmin]
    exact ⟨GensIter.collect_ok _ _ (by omega), GensIter.collect_ok _ _ (by omega)⟩
  · intro hn
    exact ⟨GensIter.collect_err _ _ (by omega), GensIter.collect_err _ _ (by omega)⟩

/-- Claim C3 (amended) witness: on a capacity-1 store, `G(1)` collects the
one-element truncated prefix, while `G(2)` panics. -/
theorem claim_C3_amended_witness :
    (((BulletproofGens.new testCrypto 1).G 1).collect =
      Except.ok ((BulletproofGens.new testCrypto 1).G_vec.take
        (min 1 (BulletproofGens.new testCrypto 1).gens_capacity))) ∧
    (((BulletproofGens.new testCrypto 1).G 2).collect = Except.error ()) := by
  constructor
  · exact ((claim_C3_views_truncation_amended (BulletproofGens.new testCrypto 1) 1
      (by decide) (by decide)).1 (by decide)).1
  · exact ((claim_C3_views_truncation_amended (BulletproofGens.new testCrypto 1) 2
      (by decide) (by decide)).2 (by decide)).1

/-- Claim C4: `increase_capacity(m)` with `m` at most the current capacity
leaves the store completely unchanged: capacity, `G_vec` and `H_vec` are all
identical. -/
theorem claim_C4_increase_capacity_noop {Point : Type} (C : Crypto Point)
    (g : BulletproofGens Point) (m : Nat) (h : m ≤ g.gens_capacity) :
    g.increase_capacity C m = g :=
  BulletproofGens.increase_cap_le C g m h

/-- Claim C4 witness: re-requesting capacity 1 on a capacity-1 store is a
no-op. -/
theorem claim_C4_witness :
    (BulletproofGens.new testCrypto 1).increase_capacity testCrypto 1 =
      BulletproofGens.new testCrypto 1 :=
  claim_C4_increase_capacity_noop testCrypto (BulletproofGens.new testCrypto 1) 1 (by decide)

/-- Claim C5: the 64-byte-skip loop of `fast_forward(n)` is equivalent to `n`
discarded `next()` calls: both leave any stream (in particular a fresh stream
for any label) in the identical state, and the stream is then positioned at
ordinal `n`, its next output being the chain point at `n`. -/
theorem claim_C5_fast_forward_eq_discarded_nexts {Point : Type} (C : Crypto Point)
    (label : Bytes) (c : GeneratorsChain) (n : Nat) :
    c.fast_forward C.xof n = GeneratorsChain.nextsDiscarded C c n ∧
    (((GeneratorsChain.new label).fast_forward C.xof n).next C).1 =
      some (chainPoint C label n) := by
  constructor
  · rw [GeneratorsChain.fast_forward_reader, GeneratorsChain.nextsDiscarded_reader]
  · exact GeneratorsChain.new_ff_next C label n

/-- Claim C6: every already-materialized entry survives `increase_capacity`:
for each index `i` below the capacity before the call, `G_vec[i]` and
`H_vec[i]` are unchanged after the call. -/
theorem claim_C6_existing_entries_preserved {Point : Type} (C : Crypto Point)
    (g : BulletproofGens Point) (n i : Nat)
    (hG : g.G_vec.length = g.gens_capacity) (hH : g.H_vec.length = g.gens_capacity)
    (hi : i < g.gens_capacity) :
    (g.increase_capacity C n).G_vec[i]? = g.G_vec[i]? ∧
    (g.increase_capacity C n).H_vec[i]? = g.H_vec[i]? :=
  BulletproofGens.increase_cap_getElem C g n i (by omega) (by omega)

/-- Claim C6 witness: entry 0 of a capacity-1 store survives growth to
capacity 2. -/
theorem claim_C6_witness :
    ((BulletproofGens.new testCrypto 1).increase_capacity testCrypto 2).G_vec[0]? =
      (BulletproofGens.new testCrypto 1).G_vec[0]? ∧
    ((BulletproofGens.new testCrypto 1).increase_capacity testCrypto 2).H_vec[0]? =
      (BulletproofGens.new testCrypto 1).H_vec[0]? :=
  claim_C6_existing_entries_preserved testCrypto (BulletproofGens.new testCrypto 1) 2 0
    (by decide) (by decide) (by decide)

/-- Claim C7: after `BulletproofGens::new(n)` and after every
`increase_capacity` call on a store satisfying the invariant, both stored
sequences have exactly `gens_capacity` elements. -/
theorem claim_C7_length_invariant {Point : Type} (C : Crypto Point) (n m : Nat)
    (g : BulletproofGens Point)
    (hG : g.G_vec.length = g.gens_capacity) (hH : g.H_vec.length = g.gens_capacity) :
    ((BulletproofGens.new C n).G_vec.length = (BulletproofGens.new C n).gens_capacity ∧
      (BulletproofGens.new C n).H_vec.length = (BulletproofGens.new C n).gens_capacity) ∧
    ((g.increase_capacity C m).G_vec.length = (g.increase_capacity C m).gens_capacity ∧
      (g.increase_capacity C m).H_vec.length = (g.increase_capacity C m).gens_capacity) := by
  constructor
  · exact BulletproofGens.increase_cap_lengths C ⟨0, [], []⟩ n rfl rfl
  · exact BulletproofGens.increase_cap_lengths C g m hG hH

/-- Claim C7 witness at `n = 1`, `m = 3` on a well-formed two-element store. -/
theorem claim_C7_witness :
    ((BulletproofGens.new testCrypto 1).G_vec.length =
        (BulletproofGens.new testCrypto 1).gens_capacity ∧
      (BulletproofGens.new testCrypto 1).H_vec.length =
        (BulletproofGens.new testCrypto 1).gens_capacity) ∧
    (((⟨2, [5, 6], [7, 8]⟩ : BulletproofGens Nat).increase_capacity testCrypto 3).G_vec.length =
        ((⟨2, [5, 6], [7, 8]⟩ : BulletproofGens Nat).increase_capacity
          testCrypto 3).gens_capacity ∧
      ((⟨2, [5, 6], [7, 8]⟩ : BulletproofGens Nat).increase_capacity testCrypto 3).H_vec.length =
        ((⟨2, [5, 6], [7, 8]⟩ : BulletproofGens Nat).increase_capacity
          testCrypto 3).gens_capacity) :=
  claim_C7_length_invariant testCrypto 1 3 ⟨2, [5, 6], [7, 8]⟩ (by decide) (by decide)

/-- Claim C8: `GeneratorsChain::new` seeds the XOF with the fixed protocol tag
`"GeneratorsChain"` followed by the label; `increase_capacity` appends points
drawn from two chains whose labels are `[b'G'] ++ [b'G']` and
`[b'G'] ++ [b'H']` — equal except for the final family byte (`71` vs `72`) —
so the two families' XOF inputs never collide. -/
theorem claim_C8_domain_separation {Point : Type} (C : Crypto Point) (label : Bytes)
    (g : BulletproofGens Point) (n : Nat) (h : ¬ g.gens_capacity ≥ n) :
    (GeneratorsChain.new label).reader.seed = generatorsChainTag ++ label ∧
    (g.increase_capacity C n).G_vec = g.G_vec ++
      (((GeneratorsChain.new ([71] ++ [71])).fast_forward C.xof g.gens_capacity).takeList C
        (n - g.gens_capacity)).1 ∧
    (g.increase_capacity C n).H_vec = g.H_vec ++
      (((GeneratorsChain.new ([71] ++ [72])).fast_forward C.xof g.gens_capacity).takeList C
        (n - g.gens_capacity)).1 ∧
    ([71] ++ [71] : Bytes).dropLast = ([71] ++ [72] : Bytes).dropLast ∧
    ([71] ++ [71] : Bytes).getLast? = some 71 ∧
    ([71] ++ [72] : Bytes).getLast? = some 72 ∧
    (GeneratorsChain.new ([71] ++ [71])).reader.seed ≠
      (GeneratorsChain.new ([71] ++ [72])).reader.seed := by
  refine ⟨rfl, ?_, ?_, by decide, by decide, by decide, by decide⟩
  · rw [BulletproofGens.increase_cap_gt C g n h]
  · rw [BulletproofGens.increase_cap_gt C g n h]

/-- Claim C8 witness: growing the empty store to capacity 1 over the concrete
primitives. -/
theorem claim_C8_witness :
    (GeneratorsChain.new []).reader.seed = generatorsChainTag ++ [] ∧
    ((⟨0, [], []⟩ : BulletproofGens Nat).increase_capacity testCrypto 1).G_vec = [] ++
      (((GeneratorsChain.new ([71] ++ [71])).fast_forward testCrypto.xof 0).takeList testCrypto
        (1 - 0)).1 ∧
    ((⟨0, [], []⟩ : BulletproofGens Nat).increase_capacity testCrypto 1).H_vec = [] ++
      (((GeneratorsChain.new ([71] ++ [72])).fast_forward testCrypto.xof 0).takeList testCrypto
        (1 - 0)).1 ∧
    ([71] ++ [71] : Bytes).dropLast = ([71] ++ [72] : Bytes).dropLast ∧
    ([71] ++ [71] : Bytes).getLast? = some 71 ∧
    ([71] ++ [72] : Bytes).getLast? = some 72 ∧
    (GeneratorsChain.new ([71] ++ [71])).reader.seed ≠
      (GeneratorsChain.new ([71] ++ [72])).reader.seed :=
  claim_C8_domain_separation testCrypto [] ⟨0, [], []⟩ 1 (by decide)

/-- Claim C9: generator derivation is total: `next()` always returns `Some`
point obtained from exactly 64 freshly read stream bytes (the cursor advances
by exactly 64), and collecting `k` points always yields exactly `k`, so
`increase_capacity` always obtains the requested number of new elements. -/
theorem claim_C9_next_total {Point : Type} (C : Crypto Point) (c : GeneratorsChain)
    (k : Nat) :
    (c.next C).1 = some (C.fromUniformBytes ((List.range 64).map
      (fun j => C.xof c.reader.seed (c.reader.pos + j)))) ∧
    (c.next C).2.reader = ⟨c.reader.seed, c.reader.pos + 64⟩ ∧
    (c.takeList C k).1.length = k :=
  ⟨rfl, rfl, GeneratorsChain.takeList_len C c k⟩

/-- Claim C10: the view iterator indexes the backing vector without a bounds
guard: for `n` at most the capacity of a well-formed store it yields exactly
`n` elements in stored order, but for `n` beyond the capacity driving it past
the vector's length reaches an out-of-bounds index — a panic, not a
truncation — so `n ≤ gens_capacity` is a safety precondition of consuming the
view. -/
theorem claim_C10_unguarded_indexing {Point : Type} (g : BulletproofGens Point) (n : Nat)
    (hG : g.G_vec.length = g.gens_capacity) (hH : g.H_vec.length = g.gens_capacity) :
    (n ≤ g.gens_capacity →
      (g.G n).collect = Except.ok (g.G_vec.take n) ∧ (g.G_vec.take n).length = n ∧
      (g.H n).collect = Except.ok (g.H_vec.take n) ∧ (g.H_vec.take n).length = n) ∧
    (g.gens_capacity < n →
      (g.G n).collect = Except.error () ∧ (g.H n).collect = Except.error ()) := by
  constructor
  · intro hn
    refine ⟨GensIter.collect_ok _ _ (by omega), ?_, GensIter.collect_ok _ _ (by omega), ?_⟩ <;>
    · simp [List.length_take]
      omega
  · intro hn
    exact ⟨GensIter.collect_err _ _ (by omega), GensIter.collect_err _ _ (by omega)⟩

/-- Claim C10 witness: on a capacity-2 store, `G(2)` yields both elements and
`G(3)` panics. -/
theorem claim_C10_witness :
    (((BulletproofGens.new testCrypto 2).G 2).collect =
      Except.ok ((BulletproofGens.new testCrypto 2).G_vec.take 2)) ∧
    (((BulletproofGens.new testCrypto 2).G 3).collect = Except.error ()) := by
  constructor
  · exact ((claim_C10_unguarded_indexing (BulletproofGens.new testCrypto 2) 2
      (by decide) (by decide)).1 (by decide)).1
  · exact ((claim_C10_unguarded_indexing (BulletproofGens.new testCrypto 2) 3
      (by decide) (by decide)).2 (by decide)).1

end SplZkToken
